import Mathlib

/-!
Verification of the MacSnap Setup dependency-resolution and batch-execution
engine (`src/utils/installer.py`, `src/utils/validators.py`,
`src/utils/config_loader.py`).

The Python code is shallowly embedded: dictionaries become association lists
(preserving insertion order, with unique keys assumed where the code assumes
them), Python sets become duplicate-free lists manipulated through
membership-guarded insertion, exceptions become `Except`, and the recursive
graph traversals (cycle detection, topological sort, dependency closure)
become fuel-indexed recursions; fuel exhaustion leaves the state unchanged,
and every theorem that depends on the traversal completing carries an
explicit fuel-sufficiency hypothesis which the concrete fuel supplied at
each call site provably satisfies.

Script execution (`_execute_script`) performs process and filesystem I/O; it
is embedded against an oracle (`World`) that fixes, per (item id, operation
slot), how the spawned child process would behave: normal completion with an
exit code and captured output, a timeout, or an exception raised before the
temporary file is created, while it is being written, or while the process
runs.  The embedding additionally threads ghost instrumentation that the
Python code does not store but the specification speaks about: the list of
script invocations actually performed and the set of temporary script files
currently existing on disk.
-/

/-- Python falsiness of a string: `""`. (List-of-chars form, which the
kernel can evaluate.) -/
def strEmpty (s : String) : Bool := s.data.isEmpty

/-- `not s.strip()`: the string has no non-whitespace character (ASCII
whitespace approximates Python `str.strip`). -/
def stripEmpty (s : String) : Bool := !(s.data.any fun c => !c.isWhitespace)

/-- Python truthiness of an optional string field: `None` and `""` are falsy. -/
def pyFalsyOpt : Option String → Bool
  | none => true
  | some s => strEmpty s

/-- `not script or not script.strip()`: the script slot is absent, empty or
whitespace-only (ASCII whitespace approximates Python `str.strip`). -/
def blankOpt : Option String → Bool
  | none => true
  | some s => strEmpty s || stripEmpty s

/-- ASCII embedding of Python `str.title()`: a letter is uppercased when the
previous character is not a letter, lowercased otherwise. -/
def pyTitle (s : String) : String :=
  String.mk (s.data.foldl
    (fun (acc : List Char × Bool) c =>
      if c.isAlpha then
        (acc.1 ++ [if acc.2 then c.toLower else c.toUpper], true)
      else (acc.1 ++ [c], false)) (([] : List Char), false)).1

/-- ASCII embedding of Python `str.isupper()`: at least one cased character
and no lowercase cased character. -/
def pyIsUpper (s : String) : Bool :=
  s.data.any (fun c => c.isAlpha) && s.data.all (fun c => !c.isAlpha || c.isUpper)

/-- ASCII embedding of Python `str.islower()`. -/
def pyIsLower (s : String) : Bool :=
  s.data.any (fun c => c.isAlpha) && s.data.all (fun c => !c.isAlpha || c.isLower)

/-- Python `set.add`: insert only when absent, so the list stays
duplicate-free and models a set with deterministic order. -/
def addToSet (l : List String) (x : String) : List String :=
  if x ∈ l then l else l ++ [x]

/-- The only exception kind the embedded code raises: Python `ValueError`
(both the explicit `raise ValueError(...)` and the one `list.index` raises). -/
inductive PyErr where
  | valueError (msg : String)
deriving DecidableEq

/-- Python `list.index`: position of the first occurrence, `ValueError` when
the element is absent. -/
def pyIndex (l : List String) (x : String) : Except PyErr Nat :=
  if x ∈ l then .ok (l.indexOf x) else .error (.valueError (x ++ " is not in list"))

/-- `config_loader.ConfigItem` (the engine-facing fields). -/
structure ConfigItem where
  id : String
  name : String
  description : String := ""
  type : String
  category : String
  selected_by_default : Bool := false
  dependencies : List String := []
  install_script : Option String := none
  validate_script : Option String := none
  configure_script : Option String := none
  uninstall_script : Option String := none
  file_path : String := ""
  config_dir : String := ""
deriving DecidableEq

/-- The configurations dictionary: an insertion-ordered association list from
item id to `ConfigItem`. -/
abbrev Configs := List (String × ConfigItem)

/-- The dictionary's key sequence (Python `for item_id in configurations`). -/
def keysOf (cfg : Configs) : List String := cfg.map Prod.fst

/-- Python `configurations.get(item_id)` / `configurations[item_id]`. -/
def cfgGet (cfg : Configs) (k : String) : Option ConfigItem :=
  match cfg with
  | [] => none
  | (k', v) :: rest => if k' = k then some v else cfgGet rest k

/-- Dependencies of the item stored under a key (empty when the key is absent,
matching the `item = configurations.get(item_id); if item:` guard). -/
def depsOf (cfg : Configs) (k : String) : List String :=
  match cfgGet cfg k with
  | some it => it.dependencies
  | none => []

theorem cfgGet_isSome_iff_mem_keys (cfg : Configs) (k : String) :
    (cfgGet cfg k).isSome = true ↔ k ∈ keysOf cfg := by
  induction cfg with
  | nil => simp [cfgGet, keysOf]
  | cons p rest ih =>
    obtain ⟨k', v⟩ := p
    by_cases h : k' = k
    · subst h; simp [cfgGet, keysOf]
    · rw [keysOf] at ih
      simp only [cfgGet, if_neg h, keysOf, List.map_cons, List.mem_cons, ih]
      constructor
      · exact Or.inr
      · rintro (hk | hk)
        · exact absurd hk.symm h
        · exact hk

theorem cfgGet_mem (cfg : Configs) (k : String) (it : ConfigItem)
    (h : cfgGet cfg k = some it) : (k, it) ∈ cfg := by
  induction cfg with
  | nil => simp [cfgGet] at h
  | cons p rest ih =>
    obtain ⟨k', v⟩ := p
    by_cases hk : k' = k
    · subst hk
      simp [cfgGet] at h
      simp [h]
    · simp [cfgGet, hk] at h
      exact List.mem_cons_of_mem _ (ih h)

/-- `installer.OperationResult`. -/
inductive OperationResult where
  | SUCCESS
  | FAILED
  | SKIPPED
  | ALREADY_INSTALLED
deriving DecidableEq

/-- `installer.ExecutionResult`. Durations are abstract (`Nat` ticks). -/
structure ExecutionResult where
  operation : String
  item_id : String
  result : OperationResult
  return_code : Int
  stdout : String
  stderr : String
  duration : Nat
  error_message : Option String := none
deriving DecidableEq

/-- How the child process spawned for one (item, slot) script would behave.
`raisesBefore` is an exception before the temporary file is created,
`raisesWrite` one while the script body is being written into it (the file
exists and, per the source, nothing deletes it), `raisesRun` any non-timeout
exception after creation (`os.chmod` / `subprocess.run`). -/
inductive RunBehavior where
  | completes (rc : Int) (out err : String) (dur : Nat)
  | timesOut (dur : Nat)
  | raisesBefore (msg : String) (dur : Nat)
  | raisesWrite (msg : String) (dur : Nat)
  | raisesRun (msg : String) (dur : Nat)
deriving DecidableEq

/-- One script execution in the oracle: the process behavior plus whether the
`os.unlink` in the cleanup handler succeeds (the source swallows `OSError`
from it). -/
structure ScriptRun where
  behavior : RunBehavior
  unlinkOk : Bool := true
deriving DecidableEq

/-- The execution oracle: behavior per (item id, operation slot). -/
def World := String → String → ScriptRun

/-- `InstallationEngine`'s mutable state, plus ghost instrumentation:
`invoked` records each `_execute_script` call, `files`/`next_file` model the
temporary script files currently existing on disk. -/
structure EngineState where
  results : List ExecutionResult := []
  installed_items : List String := []
  failed_items : List String := []
  skipped_items : List String := []
  invoked : List (String × String) := []
  files : List Nat := []
  next_file : Nat := 0
deriving DecidableEq

def engineInit : EngineState := {}

/-- `InstallationEngine._execute_script`.  The temporary file is created,
the script runs according to the oracle, and the `finally` block unlinks the
file on every path that reaches it; the `except` handlers translate timeout
and other exceptions into `ExecutionResult`s exactly as the source does. -/
def execute_script (world : World) (item : ConfigItem) (operation : String)
    (_script_content : String) (st : EngineState) : ExecutionResult × EngineState :=
  let st0 := { st with invoked := st.invoked ++ [(item.id, operation)] }
  let run := world item.id operation
  match run.behavior with
  | .raisesBefore msg d =>
      (⟨operation, item.id, .FAILED, 1, "", msg, d, some msg⟩, st0)
  | .raisesWrite msg d =>
      let fid := st0.next_file
      let st1 := { st0 with files := st0.files ++ [fid], next_file := fid + 1 }
      (⟨operation, item.id, .FAILED, 1, "", msg, d, some msg⟩, st1)
  | .completes rc out err d =>
      let fid := st0.next_file
      let created := st0.files ++ [fid]
      let st1 := { st0 with
        files := if run.unlinkOk then created.erase fid else created,
        next_file := fid + 1 }
      (⟨operation, item.id, if rc = 0 then .SUCCESS else .FAILED, rc, out, err, d, none⟩, st1)
  | .timesOut d =>
      let fid := st0.next_file
      let created := st0.files ++ [fid]
      let st1 := { st0 with
        files := if run.unlinkOk then created.erase fid else created,
        next_file := fid + 1 }
      (⟨operation, item.id, .FAILED, 124, "",
        "Script execution timed out after 5 minutes", d, some "Execution timeout"⟩, st1)
  | .raisesRun msg d =>
      let fid := st0.next_file
      let created := st0.files ++ [fid]
      let st1 := { st0 with
        files := if run.unlinkOk then created.erase fid else created,
        next_file := fid + 1 }
      (⟨operation, item.id, .FAILED, 1, "", msg, d, some msg⟩, st1)

/-- `InstallationEngine.check_install_status`. -/
def check_install_status (world : World) (item : ConfigItem) (st : EngineState) :
    ExecutionResult × EngineState :=
  match item.validate_script with
  | none =>
      (⟨"validate", item.id, .FAILED, 1, "", "No validation script provided", 0, none⟩, st)
  | some s =>
      if strEmpty s then
        (⟨"validate", item.id, .FAILED, 1, "", "No validation script provided", 0, none⟩, st)
      else execute_script world item "validate" s st

/-- `InstallationEngine.install_item`. -/
def install_item (world : World) (item : ConfigItem) (st : EngineState) :
    ExecutionResult × EngineState :=
  match item.install_script with
  | none =>
      (⟨"install", item.id, .FAILED, 1, "", "No installation script provided", 0,
        some "Missing install script"⟩, st)
  | some s =>
      if strEmpty s then
        (⟨"install", item.id, .FAILED, 1, "", "No installation script provided", 0,
          some "Missing install script"⟩, st)
      else
        let (r, st') := execute_script world item "install" s st
        if r.result = .SUCCESS then
          (r, { st' with installed_items := addToSet st'.installed_items item.id })
        else
          (r, { st' with failed_items := addToSet st'.failed_items item.id })

/-- `InstallationEngine.configure_item`. -/
def configure_item (world : World) (item : ConfigItem) (st : EngineState) :
    ExecutionResult × EngineState :=
  match item.configure_script with
  | none =>
      (⟨"configure", item.id, .SKIPPED, 0, "", "No configuration script provided", 0, none⟩, st)
  | some s =>
      if strEmpty s then
        (⟨"configure", item.id, .SKIPPED, 0, "", "No configuration script provided", 0, none⟩, st)
      else execute_script world item "configure" s st

/-- `InstallationEngine.uninstall_item`. -/
def uninstall_item (world : World) (item : ConfigItem) (st : EngineState) :
    ExecutionResult × EngineState :=
  match item.uninstall_script with
  | none =>
      (⟨"uninstall", item.id, .SKIPPED, 0, "", "No uninstallation script provided", 0, none⟩, st)
  | some s =>
      if strEmpty s then
        (⟨"uninstall", item.id, .SKIPPED, 0, "", "No uninstallation script provided", 0, none⟩, st)
      else
        let (r, st') := execute_script world item "uninstall" s st
        if r.result = .SUCCESS then
          (r, { st' with installed_items := st'.installed_items.erase item.id })
        else (r, st')

/-- `InstallationEngine._handle_install_operation`:
validate, then install, then (when a configure script exists) configure. -/
def handle_install_operation (world : World) (item : ConfigItem) (st : EngineState) :
    ExecutionResult × EngineState :=
  let (validate_result, st1) := check_install_status world item st
  if validate_result.result = .SUCCESS then
    (⟨"install", item.id, .ALREADY_INSTALLED, 0, validate_result.stdout,
      "Already installed", validate_result.duration, none⟩, st1)
  else
    let (install_result, st2) := install_item world item st1
    if install_result.result ≠ .SUCCESS then (install_result, st2)
    else if pyFalsyOpt item.configure_script then (install_result, st2)
    else
      let (configure_result, st3) := configure_item world item st2
      if configure_result.result ≠ .SUCCESS then (configure_result, st3)
      else (install_result, st3)

/-- `validators.ValidationError`. -/
structure ValidationError where
  item_id : String
  field : String
  error_type : String
  message : String
  severity : String := "error"
deriving DecidableEq

/-- `ConfigValidator.VALID_TYPES` (declaration order of the source set literal). -/
def VALID_TYPES : List String :=
  ["brew", "brew_cask", "mas", "direct_download_dmg", "direct_download_pkg",
   "proto_tool", "system_config", "launch_agent", "shell_script"]

/-- `', '.join(sorted(VALID_TYPES))` as the source computes it. -/
def validTypesSorted : String :=
  "brew, brew_cask, direct_download_dmg, direct_download_pkg, launch_agent, mas, proto_tool, shell_script, system_config"

/-- `ConfigValidator.SCRIPT_REQUIREMENTS`: per type, the (slot, required) pairs
in the dictionary's iteration order. -/
def SCRIPT_REQUIREMENTS (t : String) : Option (List (String × Bool)) :=
  if t = "brew" then some [("install", true), ("validate", false), ("configure", false), ("uninstall", false)]
  else if t = "brew_cask" then some [("install", true), ("validate", false), ("configure", false), ("uninstall", false)]
  else if t = "mas" then some [("install", true), ("validate", false), ("configure", false), ("uninstall", false)]
  else if t = "direct_download_dmg" then some [("install", true), ("validate", true), ("configure", false), ("uninstall", false)]
  else if t = "direct_download_pkg" then some [("install", true), ("validate", true), ("configure", false), ("uninstall", false)]
  else if t = "proto_tool" then some [("install", true), ("validate", false), ("configure", false), ("uninstall", false)]
  else if t = "system_config" then some [("install", false), ("validate", false), ("configure", true), ("uninstall", false)]
  else if t = "launch_agent" then some [("install", true), ("validate", true), ("configure", false), ("uninstall", true)]
  else if t = "shell_script" then some [("install", true), ("validate", false), ("configure", false), ("uninstall", false)]
  else none

/-- `getattr(item, f"{script_type}_script", None)`. -/
def scriptOf (item : ConfigItem) : String → Option String
  | "install" => item.install_script
  | "validate" => item.validate_script
  | "configure" => item.configure_script
  | "uninstall" => item.uninstall_script
  | _ => none

/-- `ConfigValidator._is_valid_id`: `re.match(r'^[a-zA-Z0-9_-]+$', item_id)`. -/
def is_valid_id (s : String) : Bool :=
  !strEmpty s && s.data.all (fun c => c.isAlphanum || c == '_' || c == '-')

/-- `ConfigValidator._is_valid_category`. -/
def is_valid_category (c : String) : Bool :=
  c == pyTitle c && !pyIsUpper c && !pyIsLower c

/-- `ConfigValidator._validate_schema`. -/
def validate_schema (item : ConfigItem) : List ValidationError :=
  (if strEmpty item.id || stripEmpty item.id then
    [⟨if strEmpty item.id then "unknown" else item.id, "id", "missing",
      "ID field is required and cannot be empty", "error"⟩] else []) ++
  (if strEmpty item.name || stripEmpty item.name then
    [⟨item.id, "name", "missing", "Name field is required and cannot be empty", "error"⟩] else []) ++
  (if strEmpty item.type || stripEmpty item.type then
    [⟨item.id, "type", "missing", "Type field is required and cannot be empty", "error"⟩] else []) ++
  (if strEmpty item.category || stripEmpty item.category then
    [⟨item.id, "category", "missing", "Category field is required and cannot be empty", "error"⟩] else [])

/-- `ConfigValidator._validate_type`. -/
def validate_type (item : ConfigItem) : List ValidationError :=
  if !strEmpty item.type && !(item.type ∈ VALID_TYPES) then
    [⟨item.id, "type", "invalid_value",
      "Invalid type '" ++ item.type ++ "'. Valid types are: " ++ validTypesSorted, "error"⟩]
  else []

/-- `script_content and script_content.strip()` is truthy. -/
def scriptPresent (o : Option String) : Bool :=
  match o with
  | none => false
  | some s => !strEmpty s && !stripEmpty s

/-- `ConfigValidator._validate_scripts`: (errors, warnings). -/
def validate_scripts (item : ConfigItem) : List ValidationError × List ValidationError :=
  match SCRIPT_REQUIREMENTS item.type with
  | none => ([], [])
  | some reqs =>
    reqs.foldl (fun acc p =>
      let content := scriptOf item p.1
      if p.2 && blankOpt content then
        (acc.1 ++ [⟨item.id, p.1 ++ "_script", "missing_required",
          "Type '" ++ item.type ++ "' requires a '" ++ p.1 ++ "' script", "error"⟩], acc.2)
      else if scriptPresent content && !p.2 then
        (acc.1, acc.2 ++ [⟨item.id, p.1 ++ "_script", "unnecessary",
          "Type '" ++ item.type ++ "' typically doesn't need a '" ++ p.1 ++ "' script", "warning"⟩])
      else acc) (([], []) : List ValidationError × List ValidationError)

/-- `ConfigValidator._validate_field_formats`: (errors, warnings). -/
def validate_field_formats (item : ConfigItem) : List ValidationError × List ValidationError :=
  ((if !strEmpty item.id && !is_valid_id item.id then
      [⟨item.id, "id", "invalid_format",
        "ID should contain only letters, numbers, underscores, and hyphens", "error"⟩] else []) ++
   item.dependencies.flatMap (fun dep =>
      if strEmpty dep || stripEmpty dep then
        [⟨item.id, "dependencies", "invalid_format",
          "Dependencies cannot contain empty values", "error"⟩]
      else if !is_valid_id dep then
        [⟨item.id, "dependencies", "invalid_format",
          "Dependency ID '" ++ dep ++ "' has invalid format", "error"⟩]
      else []),
   (if !strEmpty item.category && !is_valid_category item.category then
      [⟨item.id, "category", "format_suggestion",
        "Category should use title case (e.g., 'Development Tools')", "warning"⟩] else []))

/-- `ConfigValidator._validate_single_item`: (errors, warnings) in append order. -/
def validate_single_item (item : ConfigItem) : List ValidationError × List ValidationError :=
  let s := validate_scripts item
  let f := validate_field_formats item
  (validate_schema item ++ validate_type item ++ s.1 ++ f.1, s.2 ++ f.2)

/-- `ConfigValidator._validate_dependencies`: unresolved dependency references. -/
def validate_dependencies (cfg : Configs) : List ValidationError :=
  cfg.flatMap (fun p =>
    p.2.dependencies.flatMap (fun dep =>
      if dep ∈ keysOf cfg then []
      else [⟨p.1, "dependencies", "missing_reference",
        "Dependency '" ++ dep ++ "' does not exist", "error"⟩]))

/-- The mutable state of `_detect_circular_dependencies`: `visited`,
`rec_stack` and the accumulated errors. -/
structure CycState where
  visited : List String := []
  rec_stack : List String := []
  errs : List ValidationError := []
deriving DecidableEq

/-- `f"Circular dependency detected: {' -> '.join(cycle)}"`. -/
def cycleMsg (cycle : List String) : String :=
  "Circular dependency detected: " ++ String.intercalate " -> " cycle

/-- The inner `has_cycle(item_id, path)` closure of
`_detect_circular_dependencies`, fuel-indexed.  Note that the `return True`
paths do not remove `item_id` from `rec_stack` (exactly as the source), and
that `path.index(item_id)` can raise `ValueError`. -/
def has_cycle (cfg : Configs) : Nat → String → List String → CycState →
    Except PyErr (Bool × CycState)
  | 0, _, _, st => .ok (false, st)
  | fuel + 1, item_id, path, st =>
    if item_id ∈ st.rec_stack then
      match pyIndex path item_id with
      | .error e => .error e
      | .ok cycle_start =>
        let cycle := path.drop cycle_start ++ [item_id]
        .ok (true, { st with errs := st.errs ++
          [⟨item_id, "dependencies", "circular_dependency", cycleMsg cycle, "error"⟩] })
    else if item_id ∈ st.visited then .ok (false, st)
    else
      let st1 := { st with visited := addToSet st.visited item_id,
                           rec_stack := addToSet st.rec_stack item_id }
      let after := (depsOf cfg item_id).foldl
        (fun (acc : Except PyErr (Bool × CycState)) dep =>
          match acc with
          | .error e => .error e
          | .ok (true, s) => .ok (true, s)
          | .ok (false, s) =>
            if (cfgGet cfg dep).isSome then has_cycle cfg fuel dep (path ++ [item_id]) s
            else .ok (false, s)) (Except.ok (false, st1))
      match after with
      | .error e => .error e
      | .ok (true, s) => .ok (true, s)
      | .ok (false, s) => .ok (false, { s with rec_stack := s.rec_stack.erase item_id })

/-- The outer loop of `_detect_circular_dependencies` over all keys. -/
def detect_go (cfg : Configs) (fuel : Nat) : List String → CycState → Except PyErr CycState
  | [], st => .ok st
  | k :: ks, st =>
    if k ∈ st.visited then detect_go cfg fuel ks st
    else
      match has_cycle cfg fuel k [] st with
      | .error e => .error e
      | .ok (_, st') => detect_go cfg fuel ks st'

/-- `ConfigValidator._detect_circular_dependencies`.  The supplied fuel
`cfg.length + 1` strictly exceeds the depth the recursion can reach (each
nested working call pushes a fresh key onto `rec_stack`). -/
def detect_circular_dependencies (cfg : Configs) : Except PyErr CycState :=
  detect_go cfg (cfg.length + 1) (keysOf cfg) {}

/-- `ConfigValidator.validate_all`: per-item checks, dependency-existence
checks, then cycle detection; any `ValueError` the cycle detection raises
propagates. -/
def validate_all (cfg : Configs) : Except PyErr (List ValidationError × List ValidationError) :=
  let per := cfg.map (fun p => validate_single_item p.2)
  match detect_circular_dependencies cfg with
  | .error e => .error e
  | .ok cst =>
    .ok (per.flatMap Prod.fst ++ validate_dependencies cfg ++ cst.errs,
         per.flatMap Prod.snd)

/-- The mutable state of `get_dependency_order`'s topological sort. -/
structure TopoState where
  visited : List String := []
  temp_mark : List String := []
  result : List String := []
deriving DecidableEq

/-- The inner `visit(item_id)` closure of `get_dependency_order`, fuel-indexed. -/
def visit (cfg : Configs) : Nat → String → TopoState → TopoState
  | 0, _, st => st
  | fuel + 1, item_id, st =>
    if item_id ∈ st.temp_mark then st
    else if item_id ∈ st.visited then st
    else
      let st1 := { st with temp_mark := addToSet st.temp_mark item_id }
      let st2 := (depsOf cfg item_id).foldl (fun s dep =>
        if (cfgGet cfg dep).isSome then visit cfg fuel dep s else s) st1
      { st2 with temp_mark := st2.temp_mark.erase item_id,
                 visited := addToSet st2.visited item_id,
                 result := st2.result ++ [item_id] }

/-- The outer loop of `get_dependency_order` over all keys. -/
def topo_go (cfg : Configs) (fuel : Nat) : List String → TopoState → TopoState
  | [], st => st
  | k :: ks, st =>
    topo_go cfg fuel ks (if k ∈ st.visited then st else visit cfg fuel k st)

/-- `ConfigValidator.get_dependency_order`: re-validate, raise `ValueError`
when a circular-dependency error was recorded, then DFS-postorder sort. -/
def get_dependency_order (cfg : Configs) : Except PyErr (List String) :=
  match validate_all cfg with
  | .error e => .error e
  | .ok (errors, _) =>
    match errors.filter (fun e => e.error_type == "circular_dependency") with
    | c :: _ => .error (.valueError
        ("Cannot determine order due to circular dependencies: " ++ c.message))
    | [] => .ok (topo_go cfg (cfg.length + 1) (keysOf cfg) {}).result

/-- `InstallationEngine._dependencies_satisfied`. -/
def dependencies_satisfied (st : EngineState) (item : ConfigItem) : Bool :=
  item.dependencies.all (fun d =>
    !(st.failed_items.contains d) && !(st.skipped_items.contains d))

/-- The inner `add_dependencies(item_id)` closure of `_resolve_dependencies`,
fuel-indexed: recursively add every transitive dependency. -/
def add_dependencies (cfg : Configs) : Nat → String → List String → List String
  | 0, _, needed => needed
  | fuel + 1, item_id, needed =>
    match cfgGet cfg item_id with
    | none => needed
    | some item =>
      item.dependencies.foldl (fun nd dep =>
        if dep ∈ nd then nd else add_dependencies cfg fuel dep (nd ++ [dep])) needed

/-- A fuel bound exceeding the number of ids `add_dependencies` can ever add. -/
def resolveFuel (cfg : Configs) (selected : List String) : Nat :=
  cfg.length + (cfg.map (fun p => p.2.dependencies.length)).sum + selected.length + 1

/-- `InstallationEngine._resolve_dependencies`. -/
def resolve_dependencies (cfg : Configs) (selected : List String)
    (dependency_order : List String) : List String :=
  let needed0 := selected.foldl addToSet []
  let needed := selected.foldl
    (fun nd item_id => add_dependencies cfg (resolveFuel cfg selected) item_id nd) needed0
  dependency_order.filter (fun item_id => needed.contains item_id)

/-- The result recorded for a unit whose dependencies are not satisfied. -/
def depSkipResult (operation item_id : String) : ExecutionResult :=
  ⟨operation, item_id, .SKIPPED, 0, "", "Dependencies not satisfied", 0,
    some "Skipped due to failed dependencies"⟩

/-- The per-unit loop of `batch_process` over `items_to_process`: skip when a
declared dependency already failed or was skipped, otherwise dispatch on the
operation; the unknown-operation `ValueError` is caught by the surrounding
`except Exception` and recorded as a failed result. -/
def process_items (cfg : Configs) (world : World) (operation : String) :
    List String → List ExecutionResult → EngineState → List ExecutionResult × EngineState
  | [], acc, st => (acc, st)
  | item_id :: rest, acc, st =>
    match cfgGet cfg item_id with
    | none => process_items cfg world operation rest acc st
    | some item =>
      if dependencies_satisfied st item = false then
        process_items cfg world operation rest (acc ++ [depSkipResult operation item_id])
          { st with skipped_items := addToSet st.skipped_items item_id }
      else if operation = "install" then
        let r := handle_install_operation world item st
        process_items cfg world operation rest (acc ++ [r.1])
          { r.2 with results := r.2.results ++ [r.1] }
      else if operation = "uninstall" then
        let r := uninstall_item world item st
        process_items cfg world operation rest (acc ++ [r.1])
          { r.2 with results := r.2.results ++ [r.1] }
      else if operation = "configure" then
        let r := configure_item world item st
        process_items cfg world operation rest (acc ++ [r.1])
          { r.2 with results := r.2.results ++ [r.1] }
      else
        let msg := "Unknown operation: " ++ operation
        process_items cfg world operation rest
          (acc ++ [⟨operation, item_id, .FAILED, 1, "", msg, 0, some msg⟩])
          { st with failed_items := addToSet st.failed_items item_id }

/-- `InstallationEngine.batch_process`.  A `ValueError` raised by
`validate_all` propagates (there is no handler around that call); one raised
by `get_dependency_order` is caught and turned into an empty result list. -/
def batch_process (cfg : Configs) (selected_items : List String) (operation : String)
    (world : World) (st : EngineState) :
    Except PyErr (List ExecutionResult × EngineState) :=
  match validate_all cfg with
  | .error e => .error e
  | .ok (errors, _) =>
    if errors.isEmpty then
      match get_dependency_order cfg with
      | .error _ => .ok ([], st)
      | .ok dependency_order =>
        let items_to_process := resolve_dependencies cfg selected_items dependency_order
        .ok (process_items cfg world operation items_to_process [] st)
    else .ok ([], st)

/-! ## Concrete fixtures used by witnesses and counterexamples -/

/-- A schema-valid `brew` item (install script present) used to build the
concrete entity collections below. -/
def mkItem (i : String) (deps : List String) (inst : Option String := some "i")
    (conf : Option String := none) (vali : Option String := none) : ConfigItem :=
  { id := i, name := i, type := "brew", category := "Tools",
    dependencies := deps, install_script := inst, configure_script := conf,
    validate_script := vali }

/-- An oracle under which every script completes successfully. -/
def world0 : World := fun _ _ => ⟨.completes 0 "" "" 0, true⟩

/-- Extract the returned result list of a batch run (empty when it raised). -/
def batchResultsOf (r : Except PyErr (List ExecutionResult × EngineState)) :
    List ExecutionResult :=
  match r with
  | .ok p => p.1
  | .error _ => []

/-- Extract the final engine state of a batch run. -/
def batchStateOf (r : Except PyErr (List ExecutionResult × EngineState)) : EngineState :=
  match r with
  | .ok p => p.2
  | .error _ => engineInit

/-- `(l ++ [a]).erase a = l` when `a` is fresh. -/
theorem erase_snoc_self {a : String} {l : List String} (h : a ∉ l) :
    (l ++ [a]).erase a = l := by
  rw [List.erase_append_right _ h, List.erase_cons_head, List.append_nil]

/-- Same fact for the `Nat`-labelled ghost file list. -/
theorem erase_snoc_self_nat {a : Nat} {l : List Nat} (h : a ∉ l) :
    (l ++ [a]).erase a = l := by
  rw [List.erase_append_right _ h, List.erase_cons_head, List.append_nil]

/-! ## C7: timeout handling -/

/-- C7: whenever the spawned process exceeds the timeout bound, the executor
returns outcome `FAILED` with the reserved sentinel exit code `124` and the
error detail "Execution timeout". -/
theorem timeout_returns_sentinel_124 (world : World) (item : ConfigItem)
    (operation script_content : String) (st : EngineState) (d : Nat)
    (h : (world item.id operation).behavior = .timesOut d) :
    (execute_script world item operation script_content st).1.result = .FAILED ∧
    (execute_script world item operation script_content st).1.return_code = 124 ∧
    (execute_script world item operation script_content st).1.error_message =
      some "Execution timeout" := by
  simp [execute_script, h]

/-- An oracle whose every script run exceeds the timeout. -/
def worldTimeout : World := fun _ _ => ⟨.timesOut 301, true⟩

/-- C7 witness at a concrete item and oracle. -/
theorem timeout_returns_sentinel_124_witness :
    (worldTimeout "T7" "install").behavior = .timesOut 301 ∧
    ((execute_script worldTimeout (mkItem "T7" []) "install" "sleep 400" engineInit).1.result
        = .FAILED ∧
     (execute_script worldTimeout (mkItem "T7" []) "install" "sleep 400" engineInit).1.return_code
        = 124 ∧
     (execute_script worldTimeout (mkItem "T7" []) "install" "sleep 400" engineInit).1.error_message
        = some "Execution timeout") :=
  ⟨rfl, timeout_returns_sentinel_124 worldTimeout (mkItem "T7" []) "install" "sleep 400"
    engineInit 301 rfl⟩

/-! ## C8: temporary-file cleanup -/

/-- An oracle whose script completes but whose `os.unlink` raises `OSError`
(which the source swallows with `pass`). -/
def worldNoUnlink : World := fun _ _ => ⟨.completes 0 "ok" "" 1, false⟩

/-- C8 counterexample: when the cleanup `os.unlink` fails, the `except
OSError: pass` handler swallows the error and the temporary script file is
still on disk after the executor returns, refuting the claim that the file
is removed on every exit path. -/
theorem temp_file_persists_on_unlink_failure :
    engineInit.files = [] ∧
    (execute_script worldNoUnlink (mkItem "Z8" []) "install" "true" engineInit).2.files = [0] :=
  ⟨rfl, rfl⟩

/-- C8 amended: on every exit path reached after the script file was fully
written (success, script failure, timeout, launch exception) the temporary
file is removed, provided the removal call itself succeeds; an unlink
failure is ignored and an exception while writing the file also leaves it
behind. -/
theorem temp_file_removed_when_unlink_succeeds (world : World) (item : ConfigItem)
    (operation script_content : String) (st : EngineState)
    (hUnlink : (world item.id operation).unlinkOk = true)
    (hWrite : ∀ msg d, (world item.id operation).behavior ≠ .raisesWrite msg d)
    (hFresh : st.next_file ∉ st.files) :
    (execute_script world item operation script_content st).2.files = st.files := by
  rcases hb : (world item.id operation).behavior with ⟨rc, o, e, d⟩ | d | ⟨m, d⟩ | ⟨m, d⟩ | ⟨m, d⟩
  · simp [execute_script, hb, hUnlink, erase_snoc_self_nat hFresh]
  · simp [execute_script, hb, hUnlink, erase_snoc_self_nat hFresh]
  · simp [execute_script, hb]
  · exact absurd hb (hWrite m d)
  · simp [execute_script, hb, hUnlink, erase_snoc_self_nat hFresh]

/-- C8 amended-claim witness at a concrete item and oracle. -/
theorem temp_file_removed_when_unlink_succeeds_witness :
    (world0 "W8" "install").unlinkOk = true ∧
    (∀ msg d, (world0 "W8" "install").behavior ≠ .raisesWrite msg d) ∧
    engineInit.next_file ∉ engineInit.files ∧
    (execute_script world0 (mkItem "W8" []) "install" "true" engineInit).2.files =
      engineInit.files := by
  refine ⟨rfl, ?_, by simp [engineInit], ?_⟩
  · intro msg d h
    exact RunBehavior.noConfusion h
  · exact temp_file_removed_when_unlink_succeeds world0 (mkItem "W8" []) "install" "true"
      engineInit rfl (fun msg d h => RunBehavior.noConfusion h) (by simp [engineInit])

/-! ## C9: empty/absent script fast paths -/

/-- C9: with an empty or absent script in the invoked slot, a status check
returns `FAILED` (treated as not installed) while configure and uninstall
return `SKIPPED` with exit code 0. -/
theorem missing_script_fast_paths (world : World) (item : ConfigItem) (st : EngineState) :
    (pyFalsyOpt item.validate_script = true →
      (check_install_status world item st).1 =
        ⟨"validate", item.id, .FAILED, 1, "", "No validation script provided", 0, none⟩) ∧
    (pyFalsyOpt item.configure_script = true →
      (configure_item world item st).1 =
        ⟨"configure", item.id, .SKIPPED, 0, "", "No configuration script provided", 0, none⟩) ∧
    (pyFalsyOpt item.uninstall_script = true →
      (uninstall_item world item st).1 =
        ⟨"uninstall", item.id, .SKIPPED, 0, "", "No uninstallation script provided", 0, none⟩) := by
  refine ⟨?_, ?_, ?_⟩
  · intro h
    rcases hvs : item.validate_script with _ | s
    · simp [check_install_status, hvs]
    · rw [hvs] at h
      simp only [pyFalsyOpt] at h
      simp [check_install_status, hvs, h]
  · intro h
    rcases hcs : item.configure_script with _ | s
    · simp [configure_item, hcs]
    · rw [hcs] at h
      simp only [pyFalsyOpt] at h
      simp [configure_item, hcs, h]
  · intro h
    rcases hus : item.uninstall_script with _ | s
    · simp [uninstall_item, hus]
    · rw [hus] at h
      simp only [pyFalsyOpt] at h
      simp [uninstall_item, hus, h]

/-- An item with no validate, configure or uninstall script. -/
def itemBare : ConfigItem := mkItem "B9" []

/-- C9 witness at a concrete item with all three slots absent. -/
theorem missing_script_fast_paths_witness :
    pyFalsyOpt itemBare.validate_script = true ∧
    pyFalsyOpt itemBare.configure_script = true ∧
    pyFalsyOpt itemBare.uninstall_script = true ∧
    (check_install_status world0 itemBare engineInit).1 =
      ⟨"validate", "B9", .FAILED, 1, "", "No validation script provided", 0, none⟩ ∧
    (configure_item world0 itemBare engineInit).1 =
      ⟨"configure", "B9", .SKIPPED, 0, "", "No configuration script provided", 0, none⟩ ∧
    (uninstall_item world0 itemBare engineInit).1 =
      ⟨"uninstall", "B9", .SKIPPED, 0, "", "No uninstallation script provided", 0, none⟩ :=
  ⟨rfl, rfl, rfl,
    (missing_script_fast_paths world0 itemBare engineInit).1 rfl,
    (missing_script_fast_paths world0 itemBare engineInit).2.1 rfl,
    (missing_script_fast_paths world0 itemBare engineInit).2.2 rfl⟩

/-! ## C4: already-installed short circuit -/

/-- C4: when the unit's validate script exits 0, the install operation
records `ALREADY_INSTALLED` carrying the validate call's captured stdout and
invokes only the validate slot — in particular the install script is never
run (the ghost invocation trace gains exactly the validate entry). -/
theorem already_installed_skips_install (world : World) (item : ConfigItem)
    (st : EngineState) (s out err : String) (d : Nat)
    (hv : item.validate_script = some s) (hs : strEmpty s = false)
    (hb : (world item.id "validate").behavior = .completes 0 out err d) :
    handle_install_operation world item st =
      (⟨"install", item.id, .ALREADY_INSTALLED, 0, out, "Already installed", d, none⟩,
       { st with invoked := st.invoked ++ [(item.id, "validate")],
                 files := if (world item.id "validate").unlinkOk
                   then (st.files ++ [st.next_file]).erase st.next_file
                   else st.files ++ [st.next_file],
                 next_file := st.next_file + 1 }) := by
  simp [handle_install_operation, check_install_status, execute_script, hv, hs, hb]

/-- An item whose validate script reports "already present". -/
def itemZ4 : ConfigItem := mkItem "Z4" [] (some "i") none (some "check")

/-- An oracle whose validate run exits 0 with captured stdout "found". -/
def worldZ4 : World := fun _ op =>
  if op = "validate" then ⟨.completes 0 "found" "" 2, true⟩
  else ⟨.completes 0 "" "" 0, true⟩

/-- C4 witness at a concrete unit whose validate script exits 0. -/
theorem already_installed_skips_install_witness :
    itemZ4.validate_script = some "check" ∧
    strEmpty "check" = false ∧
    (worldZ4 "Z4" "validate").behavior = .completes 0 "found" "" 2 ∧
    handle_install_operation worldZ4 itemZ4 engineInit =
      (⟨"install", "Z4", .ALREADY_INSTALLED, 0, "found", "Already installed", 2, none⟩,
       { engineInit with invoked := [("Z4", "validate")], next_file := 1 }) := by
  refine ⟨rfl, rfl, rfl, ?_⟩
  have h := already_installed_skips_install worldZ4 itemZ4 engineInit "check" "found" "" 2
    rfl rfl rfl
  simpa [engineInit] using h

/-- Membership in the set-insertion. -/
theorem mem_addToSet_self (l : List String) (x : String) : x ∈ addToSet l x := by
  unfold addToSet
  split
  · assumption
  · simp

/-- `_dependencies_satisfied` returns `False` exactly when some declared
dependency is in the failed-set or the skipped-set. -/
theorem dependencies_satisfied_eq_false (st : EngineState) (item : ConfigItem) :
    dependencies_satisfied st item = false ↔
      ∃ d ∈ item.dependencies, d ∈ st.failed_items ∨ d ∈ st.skipped_items := by
  rw [← Bool.not_eq_true, dependencies_satisfied, List.all_eq_true]
  simp [or_iff_not_imp_left]

/-! ## C5: configure failure after successful install -/

/-- C5 (amended): in an install operation on a unit that is not already
installed, when the install script succeeds and a configure script exists
and fails, the configure result becomes the unit's final recorded result,
but — contrary to the original claim — the unit's id is added to the
*installed* set and the failed-set and skipped-set are untouched, so the
failure is not propagated to dependents; when configure succeeds or is
absent, the install result stands and the id is in the installed set. -/
theorem configure_failure_final_result (world : World) (item : ConfigItem)
    (st : EngineState) (si iout ierr : String) (di : Nat)
    (hv : pyFalsyOpt item.validate_script = true)
    (hi : item.install_script = some si) (hie : strEmpty si = false)
    (hbi : (world item.id "install").behavior = .completes 0 iout ierr di) :
    (∀ sc cout cerr dc crc, item.configure_script = some sc → strEmpty sc = false →
      (world item.id "configure").behavior = .completes crc cout cerr dc → crc ≠ 0 →
      (handle_install_operation world item st).1 =
        ⟨"configure", item.id, .FAILED, crc, cout, cerr, dc, none⟩ ∧
      item.id ∈ (handle_install_operation world item st).2.installed_items ∧
      (handle_install_operation world item st).2.failed_items = st.failed_items ∧
      (handle_install_operation world item st).2.skipped_items = st.skipped_items) ∧
    (∀ sc cout cerr dc, item.configure_script = some sc → strEmpty sc = false →
      (world item.id "configure").behavior = .completes 0 cout cerr dc →
      (handle_install_operation world item st).1 =
        ⟨"install", item.id, .SUCCESS, 0, iout, ierr, di, none⟩ ∧
      item.id ∈ (handle_install_operation world item st).2.installed_items) ∧
    (pyFalsyOpt item.configure_script = true →
      (handle_install_operation world item st).1 =
        ⟨"install", item.id, .SUCCESS, 0, iout, ierr, di, none⟩ ∧
      item.id ∈ (handle_install_operation world item st).2.installed_items) := by
  have hcheck : check_install_status world item st =
      (⟨"validate", item.id, .FAILED, 1, "", "No validation script provided", 0, none⟩, st) := by
    rcases hvs : item.validate_script with _ | s
    · simp [check_install_status, hvs]
    · rw [hvs] at hv
      simp only [pyFalsyOpt] at hv
      simp [check_install_status, hvs, hv]
  refine ⟨?_, ?_, ?_⟩
  · intro sc cout cerr dc crc hc hce hbc hcrc
    simp [handle_install_operation, hcheck, install_item, hi, hie, execute_script, hbi,
      configure_item, pyFalsyOpt, hc, hce, hbc, hcrc, mem_addToSet_self]
  · intro sc cout cerr dc hc hce hbc
    simp [handle_install_operation, hcheck, install_item, hi, hie, execute_script, hbi,
      configure_item, pyFalsyOpt, hc, hce, hbc, mem_addToSet_self]
  · intro hcf
    simp [handle_install_operation, hcheck, install_item, hi, hie, execute_script, hbi,
      hcf, mem_addToSet_self]

/-- The C5 scenario: Y installs fine but its configure script fails; X
depends on Y. -/
def cfgC5 : Configs := [("Y", mkItem "Y" [] (some "i") (some "c")), ("X", mkItem "X" ["Y"])]

/-- Oracle for the C5 scenario: only Y's configure script fails. -/
def worldC5 : World := fun i op =>
  if i = "Y" && op = "configure" then ⟨.completes 1 "" "cfail" 2, true⟩
  else ⟨.completes 0 "" "" 0, true⟩

/-- C5 counterexample: after Y's install succeeds and its configure script
fails, Y's final recorded result is the configure failure, but Y is *not* in
the failed-set, so its dependent X is not skipped — X's install script runs
and X succeeds, refuting the claim that the id "is considered failed for
propagation purposes (its dependents are skipped)". -/
theorem configure_failure_not_propagated_cex :
    (batchResultsOf (batch_process cfgC5 ["X"] "install" worldC5 engineInit)).map
      (fun r => (r.item_id, r.result)) = [("Y", .FAILED), ("X", .SUCCESS)] ∧
    "Y" ∉ (batchStateOf (batch_process cfgC5 ["X"] "install" worldC5 engineInit)).failed_items ∧
    "X" ∉ (batchStateOf (batch_process cfgC5 ["X"] "install" worldC5 engineInit)).skipped_items ∧
    ("X", "install") ∈ (batchStateOf (batch_process cfgC5 ["X"] "install" worldC5 engineInit)).invoked := by
  refine ⟨by decide, by decide, by decide, by decide⟩

/-- A unit whose install succeeds and whose configure script fails. -/
def itemY5 : ConfigItem := mkItem "Y5" [] (some "i") (some "c")

/-- Oracle for the C5 witness. -/
def worldY5 : World := fun _ op =>
  if op = "configure" then ⟨.completes 1 "out-c" "err-c" 2, true⟩
  else ⟨.completes 0 "out-i" "err-i" 1, true⟩

/-- C5 amended-claim witness at a concrete unit. -/
theorem configure_failure_final_result_witness :
    pyFalsyOpt itemY5.validate_script = true ∧
    itemY5.install_script = some "i" ∧
    itemY5.configure_script = some "c" ∧
    (worldY5 "Y5" "install").behavior = .completes 0 "out-i" "err-i" 1 ∧
    (worldY5 "Y5" "configure").behavior = .completes 1 "out-c" "err-c" 2 ∧
    ((handle_install_operation worldY5 itemY5 engineInit).1 =
      ⟨"configure", "Y5", .FAILED, 1, "out-c", "err-c", 2, none⟩ ∧
     "Y5" ∈ (handle_install_operation worldY5 itemY5 engineInit).2.installed_items ∧
     (handle_install_operation worldY5 itemY5 engineInit).2.failed_items =
       engineInit.failed_items ∧
     (handle_install_operation worldY5 itemY5 engineInit).2.skipped_items =
       engineInit.skipped_items) :=
  ⟨rfl, rfl, rfl, rfl, rfl,
    (configure_failure_final_result worldY5 itemY5 engineInit "i" "out-i" "err-i" 1
      rfl rfl rfl rfl).1 "c" "out-c" "err-c" 2 1 rfl rfl rfl (by decide)⟩

/-! ## C2: failure propagation to dependents -/

/-- The C2 scenario: X depends on Y; Y's install script exits nonzero. -/
def cfgC2 : Configs := [("Y", mkItem "Y" []), ("X", mkItem "X" ["Y"])]

/-- Oracle for the C2 scenario: only Y's install fails. -/
def worldC2 : World := fun i op =>
  if i = "Y" && op = "install" then ⟨.completes 1 "" "boom" 3, true⟩
  else ⟨.completes 0 "" "" 0, true⟩

/-- The C2 batch run: install of the selection `[X]`. -/
def c2run : Except PyErr (List ExecutionResult × EngineState) :=
  batch_process cfgC2 ["X"] "install" worldC2 engineInit

/-- C2: in any operation mode, a unit one of whose declared dependencies is
in the failed-set or skipped-set is recorded as `SKIPPED` with message
"Dependencies not satisfied", its id is added to the skipped-set, and the
loop moves on with the state otherwise untouched (in particular the ghost
invocation trace is unchanged: none of the unit's scripts run).
Concretely, with X depending on Y and Y's install script exiting nonzero,
the batch install of `[X]` returns Y as `FAILED` and X as `SKIPPED` and X's
install script is never invoked. -/
theorem failed_dependency_skips_unit :
    (∀ (cfg : Configs) (world : World) (operation item_id : String) (item : ConfigItem)
        (rest : List String) (acc : List ExecutionResult) (st : EngineState),
      cfgGet cfg item_id = some item →
      (∃ d ∈ item.dependencies, d ∈ st.failed_items ∨ d ∈ st.skipped_items) →
      process_items cfg world operation (item_id :: rest) acc st =
        process_items cfg world operation rest (acc ++ [depSkipResult operation item_id])
          { st with skipped_items := addToSet st.skipped_items item_id }) ∧
    (batchResultsOf c2run).map (fun r => (r.item_id, r.result)) =
      [("Y", .FAILED), ("X", .SKIPPED)] ∧
    (batchResultsOf c2run).map (fun r => r.stderr) = ["boom", "Dependencies not satisfied"] ∧
    "X" ∈ (batchStateOf c2run).skipped_items ∧
    ("X", "install") ∉ (batchStateOf c2run).invoked := by
  refine ⟨?_, by decide, by decide, by decide, by decide⟩
  intro cfg world operation item_id item rest acc st hget hex
  have hds : dependencies_satisfied st item = false :=
    (dependencies_satisfied_eq_false st item).mpr hex
  simp [process_items, hget, hds]

/-- C2 witness instantiating the universal part at a concrete state in which
Y has already failed. -/
theorem failed_dependency_skips_unit_witness :
    cfgGet cfgC2 "X" = some (mkItem "X" ["Y"]) ∧
    (∃ d ∈ (mkItem "X" ["Y"]).dependencies,
      d ∈ ({ engineInit with failed_items := ["Y"] } : EngineState).failed_items ∨
      d ∈ ({ engineInit with failed_items := ["Y"] } : EngineState).skipped_items) ∧
    process_items cfgC2 worldC2 "install" ["X"] [] { engineInit with failed_items := ["Y"] } =
      process_items cfgC2 worldC2 "install" [] [depSkipResult "install" "X"]
        { engineInit with
            failed_items := ["Y"]
            skipped_items := addToSet ([] : List String) "X" } :=
  ⟨by decide, ⟨"Y", by decide, Or.inl (by decide)⟩,
    failed_dependency_skips_unit.1 cfgC2 worldC2 "install" "X" (mkItem "X" ["Y"]) [] []
      { engineInit with failed_items := ["Y"] } (by decide)
      ⟨"Y", by decide, Or.inl (by decide)⟩⟩

/-! ## C3 and C6: the stale `rec_stack` ValueError -/

/-- The minimal two-node cycle: here the detector works as intended. -/
def cfgAB : Configs := [("A", mkItem "A" ["B"]), ("B", mkItem "B" ["A"])]

/-- A collection containing the cycle A↔B plus an extra unit D that depends
on A, listed after the cycle. -/
def cfgC3 : Configs := [("A", mkItem "A" ["B"]), ("B", mkItem "B" ["A"]), ("D", mkItem "D" ["A"])]

/-- C3 (code-bug evidence): for `cfgC3` — a collection containing the cycle
A→B→A — `validate_all` does not return an error list at all: the `return
True` paths of `has_cycle` never clean `rec_stack`, so the later traversal
rooted at D meets the stale entry for A and `path.index(A)` raises
`ValueError`, which propagates out of `validate_all` and out of
`get_dependency_order`.  On the minimal collection `cfgAB` the intended
behavior is observable: one error naming both A and B. -/
theorem cycle_detection_raises_at_stale_stack :
    validate_all cfgC3 = .error (.valueError "A is not in list") ∧
    get_dependency_order cfgC3 = .error (.valueError "A is not in list") ∧
    validate_all cfgAB = .ok ([⟨"A", "dependencies", "circular_dependency",
      "Circular dependency detected: A -> B -> A", "error"⟩], []) :=
  ⟨rfl, rfl, rfl⟩

/-- The C6 failing collection: cycle P↔Q plus R depending on P. -/
def cfgC6 : Configs := [("P", mkItem "P" ["Q"]), ("Q", mkItem "Q" ["P"]), ("R", mkItem "R" ["P"])]

/-- C6 (code-bug evidence): `batch_process` is supposed to return an empty
result list whenever validation fails or the graph is cyclic, but for
`cfgC6` the `ValueError` that `validate_all` raises (stale `rec_stack`,
`path.index` miss) escapes `batch_process`: only the call to
`get_dependency_order` is wrapped in a `try/except ValueError`, not the
direct `validate_all` call. -/
theorem batch_raises_on_cycle_validation :
    validate_all cfgC6 = .error (.valueError "P is not in list") ∧
    batch_process cfgC6 ["R"] "install" world0 engineInit =
      .error (.valueError "P is not in list") :=
  ⟨rfl, rfl⟩

/-! ## C10: result item ids come from the configurations mapping -/

theorem execute_script_item_id (world : World) (item : ConfigItem)
    (operation script_content : String) (st : EngineState) :
    (execute_script world item operation script_content st).1.item_id = item.id := by
  rcases hb : (world item.id operation).behavior <;> simp [execute_script, hb]

theorem check_install_status_item_id (world : World) (item : ConfigItem) (st : EngineState) :
    (check_install_status world item st).1.item_id = item.id := by
  rcases hvs : item.validate_script with _ | s
  · simp [check_install_status, hvs]
  · by_cases he : strEmpty s <;>
      simp [check_install_status, hvs, he, execute_script_item_id]

theorem install_item_item_id (world : World) (item : ConfigItem) (st : EngineState) :
    (install_item world item st).1.item_id = item.id := by
  rcases hi : item.install_script with _ | s
  · simp [install_item, hi]
  · by_cases he : strEmpty s
    · simp [install_item, hi, he]
    · simp only [install_item, hi, he, Bool.false_eq_true, if_false]
      split <;> simp [execute_script_item_id]

theorem configure_item_item_id (world : World) (item : ConfigItem) (st : EngineState) :
    (configure_item world item st).1.item_id = item.id := by
  rcases hc : item.configure_script with _ | s
  · simp [configure_item, hc]
  · by_cases he : strEmpty s <;>
      simp [configure_item, hc, he, execute_script_item_id]

theorem uninstall_item_item_id (world : World) (item : ConfigItem) (st : EngineState) :
    (uninstall_item world item st).1.item_id = item.id := by
  rcases hu : item.uninstall_script with _ | s
  · simp [uninstall_item, hu]
  · by_cases he : strEmpty s
    · simp [uninstall_item, hu, he]
    · simp only [uninstall_item, hu, he, Bool.false_eq_true, if_false]
      split <;> simp [execute_script_item_id]

theorem handle_install_operation_item_id (world : World) (item : ConfigItem) (st : EngineState) :
    (handle_install_operation world item st).1.item_id = item.id := by
  simp only [handle_install_operation]
  split
  · simp
  · split
    · simp [install_item_item_id]
    · split
      · simp [install_item_item_id]
      · split
        · simp [configure_item_item_id]
        · simp [install_item_item_id]

/-- Every result the per-unit loop appends carries an `item_id` that is a key
of the configurations mapping (thanks to the defensive
`if item_id not in configurations: continue` guard and the loader's invariant
that each item is stored under its own id). -/
theorem process_items_ids (cfg : Configs) (world : World) (operation : String)
    (hids : ∀ k it, (k, it) ∈ cfg → it.id = k) :
    ∀ (ids : List String) (acc : List ExecutionResult) (st : EngineState),
      (∀ r ∈ acc, r.item_id ∈ keysOf cfg) →
      ∀ r ∈ (process_items cfg world operation ids acc st).1, r.item_id ∈ keysOf cfg := by
  intro ids
  induction ids with
  | nil =>
    intro acc st hacc
    simpa [process_items] using hacc
  | cons item_id rest ih =>
    intro acc st hacc
    rcases hget : cfgGet cfg item_id with _ | item
    · simp only [process_items, hget]
      exact ih acc st hacc
    · have hidk : item_id ∈ keysOf cfg :=
        (cfgGet_isSome_iff_mem_keys cfg item_id).mp (by simp [hget])
      have hitem : item.id = item_id := hids item_id item (cfgGet_mem cfg item_id item hget)
      have hext : ∀ (x : ExecutionResult), x.item_id = item.id →
          ∀ r ∈ acc ++ [x], r.item_id ∈ keysOf cfg := by
        intro x hx r hr
        rcases List.mem_append.mp hr with h | h
        · exact hacc r h
        · rw [List.mem_singleton.mp h, hx, hitem]
          exact hidk
      have hskip : ∀ r ∈ acc ++ [depSkipResult operation item_id], r.item_id ∈ keysOf cfg := by
        intro r hr
        rcases List.mem_append.mp hr with h | h
        · exact hacc r h
        · rw [List.mem_singleton.mp h]
          exact hidk
      simp only [process_items, hget]
      by_cases hds : dependencies_satisfied st item = false
      · rw [if_pos hds]
        exact ih _ _ hskip
      · rw [if_neg hds]
        by_cases hop1 : operation = "install"
        · rw [if_pos hop1]
          exact ih _ _ (hext _ (handle_install_operation_item_id world item st))
        · rw [if_neg hop1]
          by_cases hop2 : operation = "uninstall"
          · rw [if_pos hop2]
            exact ih _ _ (hext _ (uninstall_item_item_id world item st))
          · rw [if_neg hop2]
            by_cases hop3 : operation = "configure"
            · rw [if_pos hop3]
              exact ih _ _ (hext _ (configure_item_item_id world item st))
            · rw [if_neg hop3]
              refine ih _ _ ?_
              intro r hr
              rcases List.mem_append.mp hr with h | h
              · exact hacc r h
              · rw [List.mem_singleton.mp h]
                exact hidk

/-- C10: every `ExecutionResult` a batch returns carries an `item_id` that is
a key of the supplied configurations mapping, and whether `batch_process`
raises at all (and with which error) is independent of the selection — a
selected identifier absent from the mapping is silently dropped and causes
no error. -/
theorem batch_results_item_ids_in_configs :
    (∀ (cfg : Configs) (world : World) (operation : String) (selected : List String)
        (st st' : EngineState) (rs : List ExecutionResult),
      (∀ k it, (k, it) ∈ cfg → it.id = k) →
      batch_process cfg selected operation world st = .ok (rs, st') →
      ∀ r ∈ rs, r.item_id ∈ keysOf cfg) ∧
    (∀ (cfg : Configs) (world : World) (operation : String)
        (sel sel' : List String) (st : EngineState) (e : PyErr),
      batch_process cfg sel operation world st = .error e →
      batch_process cfg sel' operation world st = .error e) := by
  constructor
  · intro cfg world operation selected st st' rs hids hrun r hr
    rcases hva : validate_all cfg with e | ⟨errors, warns⟩
    · simp only [batch_process, hva] at hrun
      exact absurd hrun (by simp)
    · simp only [batch_process, hva] at hrun
      by_cases herr : errors.isEmpty
      · rw [if_pos herr] at hrun
        rcases hord : get_dependency_order cfg with e' | dependency_order
        · rw [hord] at hrun
          simp only [Except.ok.injEq, Prod.mk.injEq] at hrun
          rcases hrun with ⟨hrs, _⟩
          subst hrs
          simp at hr
        · rw [hord] at hrun
          simp only [Except.ok.injEq] at hrun
          have hrs : rs = (process_items cfg world operation
              (resolve_dependencies cfg selected dependency_order) [] st).1 := by
            have := congrArg Prod.fst hrun
            simpa using this.symm
          rw [hrs] at hr
          exact process_items_ids cfg world operation hids _ [] st (by simp) r hr
      · rw [if_neg herr] at hrun
        simp only [Except.ok.injEq, Prod.mk.injEq] at hrun
        rcases hrun with ⟨hrs, _⟩
        subst hrs
        simp at hr
  · intro cfg world operation sel sel' st e hrun
    rcases hva : validate_all cfg with e' | ⟨errors, warns⟩
    · simp only [batch_process, hva] at hrun ⊢
      exact hrun
    · simp only [batch_process, hva] at hrun
      by_cases herr : errors.isEmpty
      · rw [if_pos herr] at hrun
        rcases hord : get_dependency_order cfg with e'' | dependency_order <;>
          rw [hord] at hrun <;> exact absurd hrun (by simp)
      · rw [if_neg herr] at hrun
        exact absurd hrun (by simp)

/-- A single well-formed unit, used for the C10 witness batch. -/
def cfgW : Configs := [("W", mkItem "W" [])]

/-- The C10 witness batch run. -/
def c10run : Except PyErr (List ExecutionResult × EngineState) :=
  batch_process cfgW ["W"] "install" world0 engineInit

/-- C10 witness: a concrete successful batch whose every result id is a key,
plus a concrete raising batch whose error is unchanged when the selection is
replaced by a bogus identifier. -/
theorem batch_results_item_ids_in_configs_witness :
    (∀ k it, (k, it) ∈ cfgW → it.id = k) ∧
    (∀ r ∈ batchResultsOf c10run, r.item_id ∈ keysOf cfgW) ∧
    batch_process cfgC6 ["R"] "install" world0 engineInit =
      .error (.valueError "P is not in list") ∧
    batch_process cfgC6 ["bogus"] "install" world0 engineInit =
      .error (.valueError "P is not in list") := by
  have hids : ∀ k it, (k, it) ∈ cfgW → it.id = k := by
    intro k it h
    simp only [cfgW, List.mem_singleton] at h
    rw [show it = mkItem "W" [] from congrArg Prod.snd h,
        show k = "W" from congrArg Prod.fst h]
    rfl
  refine ⟨hids, ?_, rfl, ?_⟩
  · intro r hr
    exact batch_results_item_ids_in_configs.1 cfgW world0 "install" ["W"] engineInit
      (batchStateOf c10run) (batchResultsOf c10run) hids rfl r hr
  · exact batch_results_item_ids_in_configs.2 cfgC6 world0 "install" ["R"] ["bogus"]
      engineInit (.valueError "P is not in list") rfl

/-! ## C1: topological soundness of `get_dependency_order` on acyclic inputs -/

/-- The dependency edge the traversals follow: `a` declares a dependency on
`b` and `b` is itself a key of the collection (the code only recurses into
dependencies present in `configurations`). -/
def depEdge (cfg : Configs) (a b : String) : Prop :=
  b ∈ keysOf cfg ∧ ∃ it, cfgGet cfg a = some it ∧ b ∈ it.dependencies

/-- The collection's dependency graph is acyclic. -/
def AcyclicCfg (cfg : Configs) : Prop :=
  ∀ a, ¬ Relation.TransGen (depEdge cfg) a a

theorem addToSet_of_not_mem {l : List String} {x : String} (h : x ∉ l) :
    addToSet l x = l ++ [x] := if_neg h

theorem mem_addToSet {l : List String} {x y : String} :
    y ∈ addToSet l x ↔ y ∈ l ∨ y = x := by
  unfold addToSet
  split
  · constructor
    · exact Or.inl
    · rintro (h | rfl) <;> assumption
  · simp

theorem mem_addToSet_of_mem {l : List String} {x y : String} (h : y ∈ l) :
    y ∈ addToSet l x := mem_addToSet.mpr (Or.inl h)

theorem nodup_length_le {l₁ l₂ : List String} (hnd : l₁.Nodup)
    (hsub : ∀ x ∈ l₁, x ∈ l₂) : l₁.length ≤ l₂.length := by
  calc l₁.length = l₁.toFinset.card := (List.toFinset_card_of_nodup hnd).symm
    _ ≤ l₂.toFinset.card := Finset.card_le_card (fun x hx =>
        List.mem_toFinset.mpr (hsub x (List.mem_toFinset.mp hx)))
    _ ≤ l₂.length := List.toFinset_card_le l₂

theorem mem_ite_singleton {α : Type} {c : Prop} [Decidable c] {x e : α}
    (h : e ∈ (if c then [x] else [])) : e = x := by
  split at h
  · exact List.mem_singleton.mp h
  · simp at h

/-- The dependency fold of `has_cycle` returns `(False, ·)` while preserving
`rec_stack` and the error list, when the graph is acyclic and every element
of the stack reaches each followed dependency. -/
theorem hc_fold_acyclic (cfg : Configs) (fuel : Nat) (path : List String)
    (IH : ∀ (item_id : String) (path' : List String) (st : CycState),
      (∀ r ∈ st.rec_stack, Relation.TransGen (depEdge cfg) r item_id) →
      ∃ v', has_cycle cfg fuel item_id path' st =
        .ok (false, { visited := v', rec_stack := st.rec_stack, errs := st.errs })) :
    ∀ (ds : List String) (s : CycState),
      (∀ d ∈ ds, (cfgGet cfg d).isSome = true →
        ∀ r ∈ s.rec_stack, Relation.TransGen (depEdge cfg) r d) →
      ∃ v', ds.foldl
        (fun (acc : Except PyErr (Bool × CycState)) dep =>
          match acc with
          | .error e => .error e
          | .ok (true, s) => .ok (true, s)
          | .ok (false, s) =>
            if (cfgGet cfg dep).isSome then has_cycle cfg fuel dep path s
            else .ok (false, s)) (Except.ok (false, s)) =
        .ok (false, { visited := v', rec_stack := s.rec_stack, errs := s.errs }) := by
  intro ds
  induction ds with
  | nil =>
    intro s _
    exact ⟨s.visited, rfl⟩
  | cons d ds ih =>
    intro s hstar
    rw [List.foldl_cons]
    by_cases hd : (cfgGet cfg d).isSome = true
    · obtain ⟨v₂, h₂⟩ := IH d path s (hstar d (List.mem_cons_self d ds) hd)
      have hstep : (match Except.ok (false, s) with
          | .error e => (.error e : Except PyErr (Bool × CycState))
          | .ok (true, s) => .ok (true, s)
          | .ok (false, s) =>
            if (cfgGet cfg d).isSome then has_cycle cfg fuel d path s
            else .ok (false, s)) =
          .ok (false, ⟨v₂, s.rec_stack, s.errs⟩) := by
        show (if (cfgGet cfg d).isSome = true then has_cycle cfg fuel d path s
            else (.ok (false, s) : Except PyErr (Bool × CycState))) =
          .ok (false, ⟨v₂, s.rec_stack, s.errs⟩)
        rw [if_pos hd]
        exact h₂
      rw [hstep]
      obtain ⟨v₃, h₃⟩ := ih ⟨v₂, s.rec_stack, s.errs⟩
        (fun d' hd' hs r hr => hstar d' (List.mem_cons_of_mem d hd') hs r hr)
      exact ⟨v₃, h₃⟩
    · have hstep : (match Except.ok (false, s) with
          | .error e => (.error e : Except PyErr (Bool × CycState))
          | .ok (true, s) => .ok (true, s)
          | .ok (false, s) =>
            if (cfgGet cfg d).isSome then has_cycle cfg fuel d path s
            else .ok (false, s)) = .ok (false, s) := by
        show (if (cfgGet cfg d).isSome = true then has_cycle cfg fuel d path s
            else (.ok (false, s) : Except PyErr (Bool × CycState))) = .ok (false, s)
        rw [if_neg hd]
      rw [hstep]
      exact ih s (fun d' hd' hs r hr => hstar d' (List.mem_cons_of_mem d hd') hs r hr)

/-- On an acyclic collection `has_cycle` never reports a cycle, never
raises, and restores `rec_stack` and the error list. -/
theorem has_cycle_acyclic (cfg : Configs) (hacy : AcyclicCfg cfg) :
    ∀ (fuel : Nat) (item_id : String) (path : List String) (st : CycState),
      (∀ r ∈ st.rec_stack, Relation.TransGen (depEdge cfg) r item_id) →
      ∃ v', has_cycle cfg fuel item_id path st =
        .ok (false, { visited := v', rec_stack := st.rec_stack, errs := st.errs }) := by
  intro fuel
  induction fuel with
  | zero =>
    intro item_id path st _
    exact ⟨st.visited, rfl⟩
  | succ fuel ih =>
    intro item_id path st hpre
    by_cases h1 : item_id ∈ st.rec_stack
    · exact absurd (hpre item_id h1) (hacy item_id)
    · by_cases h2 : item_id ∈ st.visited
      · exact ⟨st.visited, by simp only [has_cycle, if_neg h1, if_pos h2]⟩
      · have hstar : ∀ d ∈ depsOf cfg item_id, (cfgGet cfg d).isSome = true →
            ∀ r ∈ st.rec_stack ++ [item_id], Relation.TransGen (depEdge cfg) r d := by
          intro d hd hsome r hr
          have hedge : depEdge cfg item_id d := by
            refine ⟨(cfgGet_isSome_iff_mem_keys cfg d).mp hsome, ?_⟩
            unfold depsOf at hd
            rcases hg : cfgGet cfg item_id with _ | it
            · rw [hg] at hd
              simp at hd
            · rw [hg] at hd
              exact ⟨it, rfl, hd⟩
          rcases List.mem_append.mp hr with h | h
          · exact (hpre r h).tail hedge
          · rw [List.mem_singleton.mp h]
            exact Relation.TransGen.single hedge
        obtain ⟨v₂, h₂⟩ := hc_fold_acyclic cfg fuel (path ++ [item_id]) ih
          (depsOf cfg item_id)
          ⟨addToSet st.visited item_id, addToSet st.rec_stack item_id, st.errs⟩
          (by
            intro d hd hs r hr
            refine hstar d hd hs r ?_
            simpa [addToSet_of_not_mem h1] using hr)
        refine ⟨v₂, ?_⟩
        simp only [has_cycle, if_neg h1, if_neg h2]
        rw [h₂]
        have hrs : (addToSet st.rec_stack item_id).erase item_id = st.rec_stack := by
          rw [addToSet_of_not_mem h1, erase_snoc_self h1]
        simp [hrs]

/-- The outer cycle-detection loop on an acyclic collection: no error is
ever added and the stack stays empty. -/
theorem detect_go_acyclic (cfg : Configs) (hacy : AcyclicCfg cfg) (fuel : Nat) :
    ∀ (ks : List String) (st : CycState), st.rec_stack = [] →
      ∃ v', detect_go cfg fuel ks st = .ok { visited := v', rec_stack := [], errs := st.errs } := by
  intro ks
  induction ks with
  | nil =>
    intro st hrec
    exact ⟨st.visited, by rw [detect_go, ← hrec]⟩
  | cons k ks ih =>
    intro st hrec
    by_cases hv : k ∈ st.visited
    · obtain ⟨v', h'⟩ := ih st hrec
      exact ⟨v', by rw [detect_go, if_pos hv]; exact h'⟩
    · obtain ⟨v₂, h₂⟩ := has_cycle_acyclic cfg hacy fuel k [] st
        (by rw [hrec]; intro r hr; simp at hr)
      obtain ⟨v₃, h₃⟩ := ih ⟨v₂, st.rec_stack, st.errs⟩ hrec
      refine ⟨v₃, ?_⟩
      rw [detect_go, if_neg hv, h₂]
      rw [hrec] at h₃ ⊢
      exact h₃

/-- `_detect_circular_dependencies` on an acyclic collection: no errors. -/
theorem detect_acyclic (cfg : Configs) (hacy : AcyclicCfg cfg) :
    ∃ v', detect_circular_dependencies cfg =
      .ok { visited := v', rec_stack := [], errs := [] } :=
  detect_go_acyclic cfg hacy (cfg.length + 1) (keysOf cfg) {} rfl

theorem validate_schema_types (item : ConfigItem) :
    ∀ e ∈ validate_schema item, e.error_type = "missing" := by
  intro e he
  unfold validate_schema at he
  rcases List.mem_append.mp he with he | he
  · rcases List.mem_append.mp he with he | he
    · rcases List.mem_append.mp he with he | he
      · rw [mem_ite_singleton he]
      · rw [mem_ite_singleton he]
    · rw [mem_ite_singleton he]
  · rw [mem_ite_singleton he]

theorem validate_type_types (item : ConfigItem) :
    ∀ e ∈ validate_type item, e.error_type = "invalid_value" := by
  intro e he
  unfold validate_type at he
  rw [mem_ite_singleton he]

/-- Fold-invariance of a property of the first (error) component. -/
theorem foldl_fst_all {α β : Type} (P : α → Prop)
    (step : List α × List α → β → List α × List α)
    (hstep : ∀ acc b, (∀ e ∈ acc.1, P e) → ∀ e ∈ (step acc b).1, P e) :
    ∀ (l : List β) (acc : List α × List α),
      (∀ e ∈ acc.1, P e) → ∀ e ∈ (l.foldl step acc).1, P e := by
  intro l
  induction l with
  | nil =>
    intro acc h
    simpa using h
  | cons b bs ih =>
    intro acc h
    rw [List.foldl_cons]
    exact ih _ (hstep acc b h)

theorem validate_scripts_types (item : ConfigItem) :
    ∀ e ∈ (validate_scripts item).1, e.error_type = "missing_required" := by
  unfold validate_scripts
  rcases SCRIPT_REQUIREMENTS item.type with _ | reqs
  · simp
  · refine foldl_fst_all _ _ ?_ reqs ([], []) (by simp)
    intro acc p hacc e he
    by_cases h1 : (p.2 && blankOpt (scriptOf item p.1)) = true
    · rw [if_pos h1] at he
      rcases List.mem_append.mp he with h | h
      · exact hacc e h
      · rw [List.mem_singleton.mp h]
    · rw [if_neg h1] at he
      by_cases h2 : (scriptPresent (scriptOf item p.1) && !p.2) = true
      · rw [if_pos h2] at he
        exact hacc e he
      · rw [if_neg h2] at he
        exact hacc e he

theorem validate_field_formats_types (item : ConfigItem) :
    ∀ e ∈ (validate_field_formats item).1, e.error_type = "invalid_format" := by
  intro e he
  unfold validate_field_formats at he
  rcases List.mem_append.mp he with he | he
  · rw [mem_ite_singleton he]
  · rcases List.mem_flatMap.mp he with ⟨dep, _, hme⟩
    by_cases h1 : (strEmpty dep || stripEmpty dep) = true
    · rw [if_pos h1] at hme
      rw [List.mem_singleton.mp hme]
    · rw [if_neg h1] at hme
      by_cases h2 : (!is_valid_id dep) = true
      · rw [if_pos h2] at hme
        rw [List.mem_singleton.mp hme]
      · rw [if_neg h2] at hme
        simp at hme

theorem validate_dependencies_types (cfg : Configs) :
    ∀ e ∈ validate_dependencies cfg, e.error_type = "missing_reference" := by
  intro e he
  unfold validate_dependencies at he
  rcases List.mem_flatMap.mp he with ⟨p, _, hme⟩
  rcases List.mem_flatMap.mp hme with ⟨dep, _, hme'⟩
  by_cases h1 : dep ∈ keysOf cfg
  · rw [if_pos h1] at hme'
    simp at hme'
  · rw [if_neg h1] at hme'
    rw [List.mem_singleton.mp hme']

theorem validate_single_item_no_circular (item : ConfigItem) :
    ∀ e ∈ (validate_single_item item).1, e.error_type ≠ "circular_dependency" := by
  intro e he
  unfold validate_single_item at he
  rcases List.mem_append.mp he with he | he
  · rcases List.mem_append.mp he with he | he
    · rcases List.mem_append.mp he with he | he
      · rw [validate_schema_types item e he]
        decide
      · rw [validate_type_types item e he]
        decide
    · rw [validate_scripts_types item e he]
      decide
  · rw [validate_field_formats_types item e he]
    decide

/-- On an acyclic collection `validate_all` returns normally and none of the
errors it reports is a circular-dependency error. -/
theorem validate_all_acyclic (cfg : Configs) (hacy : AcyclicCfg cfg) :
    ∃ E W, validate_all cfg = .ok (E, W) ∧
      E.filter (fun e => e.error_type == "circular_dependency") = [] := by
  obtain ⟨v', hdet⟩ := detect_acyclic cfg hacy
  refine ⟨(cfg.map (fun p => validate_single_item p.2)).flatMap Prod.fst ++
      validate_dependencies cfg ++ [],
    (cfg.map (fun p => validate_single_item p.2)).flatMap Prod.snd, ?_, ?_⟩
  · rw [validate_all, hdet]
  · rw [List.filter_eq_nil]
    intro e he
    rw [List.append_nil] at he
    simp only [Bool.not_eq_true, beq_eq_false_iff_ne, ne_eq]
    rcases List.mem_append.mp he with he | he
    · rcases List.mem_flatMap.mp he with ⟨pe, hpe, hme⟩
      rcases List.mem_map.mp hpe with ⟨p, _, hp⟩
      rw [← hp] at hme
      exact validate_single_item_no_circular p.2 e hme
    · rw [validate_dependencies_types cfg e he]
      decide

/-- On an acyclic collection `get_dependency_order` returns the DFS
postorder computed by `topo_go`. -/
theorem get_dependency_order_acyclic (cfg : Configs) (hacy : AcyclicCfg cfg) :
    get_dependency_order cfg =
      .ok (topo_go cfg (cfg.length + 1) (keysOf cfg) {}).result := by
  obtain ⟨E, W, hva, hfilter⟩ := validate_all_acyclic cfg hacy
  rw [get_dependency_order, hva]
  show (match E.filter (fun e => e.error_type == "circular_dependency") with
      | c :: _ => (Except.error (PyErr.valueError
          ("Cannot determine order due to circular dependencies: " ++ c.message)) :
          Except PyErr (List String))
      | [] => .ok (topo_go cfg (cfg.length + 1) (keysOf cfg) {}).result) =
    .ok (topo_go cfg (cfg.length + 1) (keysOf cfg) {}).result
  rw [hfilter]

/-- `a` occurs at a strictly smaller position than `b` in `l`. -/
def Before (l : List String) (a b : String) : Prop :=
  ∃ i j : Nat, i < j ∧ l.get? i = some a ∧ l.get? j = some b

theorem Before.append {l : List String} {a b : String} (t : List String)
    (h : Before l a b) : Before (l ++ t) a b := by
  obtain ⟨i, j, hij, ha, hb⟩ := h
  have hi : i < l.length := (List.get?_eq_some.mp ha).1
  have hj : j < l.length := (List.get?_eq_some.mp hb).1
  exact ⟨i, j, hij, by rw [List.get?_append hi]; exact ha,
    by rw [List.get?_append hj]; exact hb⟩

theorem before_snoc {l : List String} {a b : String} (ha : a ∈ l) :
    Before (l ++ [b]) a b := by
  obtain ⟨i, hi⟩ := List.mem_iff_get?.mp ha
  have hlt : i < l.length := (List.get?_eq_some.mp hi).1
  exact ⟨i, l.length, hlt, by rw [List.get?_append hlt]; exact hi,
    List.get?_concat_length l b⟩

/-- Invariant of the topological sort: the result list is duplicate-free,
mirrors the visited set, and is topologically sorted so far. -/
structure TopoInv (cfg : Configs) (st : TopoState) : Prop where
  nodup : st.result.Nodup
  vis_res : ∀ y, y ∈ st.visited ↔ y ∈ st.result
  sorted : ∀ v ∈ st.result, ∀ d ∈ depsOf cfg v, d ∈ keysOf cfg → Before st.result d v

/-- What one completed `visit` call guarantees relative to its input state. -/
structure VisitOut (st st' : TopoState) (x : String) : Prop where
  temp_eq : st'.temp_mark = st.temp_mark
  res_ext : ∃ suf, st'.result = st.result ++ suf
  vis_mono : ∀ y ∈ st.visited, y ∈ st'.visited
  vis_new : ∀ y ∈ st'.visited, y ∈ st.visited ∨ y ∉ st.temp_mark
  covered : x ∈ st'.visited ∨ x ∈ st.temp_mark

/-- The dependency fold inside `visit`. -/
def visitFold (cfg : Configs) (fuel : Nat) (ds : List String) (s : TopoState) : TopoState :=
  ds.foldl (fun s dep => if (cfgGet cfg dep).isSome then visit cfg fuel dep s else s) s

/-- Soundness of the dependency fold, given soundness of `visit` at the
child fuel. -/
theorem visit_fold_sound (cfg : Configs) (fuel : Nat)
    (IH : ∀ (x : String) (st : TopoState),
      x ∈ keysOf cfg →
      (∀ t ∈ st.temp_mark, t ∈ keysOf cfg) →
      st.temp_mark.Nodup →
      (keysOf cfg).length - st.temp_mark.length < fuel →
      (∀ t ∈ st.temp_mark, Relation.ReflTransGen (depEdge cfg) t x) →
      TopoInv cfg st →
      TopoInv cfg (visit cfg fuel x st) ∧ VisitOut st (visit cfg fuel x st) x) :
    ∀ (ds : List String) (s : TopoState),
      (∀ t ∈ s.temp_mark, t ∈ keysOf cfg) →
      s.temp_mark.Nodup →
      (keysOf cfg).length - s.temp_mark.length < fuel →
      (∀ d ∈ ds, d ∈ keysOf cfg → ∀ t ∈ s.temp_mark,
        Relation.ReflTransGen (depEdge cfg) t d) →
      TopoInv cfg s →
      TopoInv cfg (visitFold cfg fuel ds s) ∧
      (visitFold cfg fuel ds s).temp_mark = s.temp_mark ∧
      (∃ suf, (visitFold cfg fuel ds s).result = s.result ++ suf) ∧
      (∀ y ∈ s.visited, y ∈ (visitFold cfg fuel ds s).visited) ∧
      (∀ y ∈ (visitFold cfg fuel ds s).visited, y ∈ s.visited ∨ y ∉ s.temp_mark) ∧
      (∀ d ∈ ds, d ∈ keysOf cfg →
        (d ∈ (visitFold cfg fuel ds s).visited ∨ d ∈ s.temp_mark)) := by
  intro ds
  induction ds with
  | nil =>
    intro s hsub hnd hfuel hstar hinv
    refine ⟨hinv, rfl, ⟨[], by simp [visitFold]⟩, fun y hy => hy,
      fun y hy => Or.inl hy, fun d hd => absurd hd (by simp)⟩
  | cons d ds ih =>
    intro s hsub hnd hfuel hstar hinv
    by_cases hd : (cfgGet cfg d).isSome = true
    · have hdk : d ∈ keysOf cfg := (cfgGet_isSome_iff_mem_keys cfg d).mp hd
      obtain ⟨hinv1, out1⟩ := IH d s hdk hsub hnd hfuel
        (hstar d (List.mem_cons_self d ds) hdk) hinv
      have hstep : visitFold cfg fuel (d :: ds) s =
          visitFold cfg fuel ds (visit cfg fuel d s) := by
        simp only [visitFold, List.foldl_cons, if_pos hd]
      obtain ⟨hinv2, htemp2, hres2, hmono2, hnew2, hcov2⟩ :=
        ih (visit cfg fuel d s)
          (by rw [out1.temp_eq]; exact hsub)
          (by rw [out1.temp_eq]; exact hnd)
          (by rw [out1.temp_eq]; exact hfuel)
          (by
            rw [out1.temp_eq]
            exact fun d' hd' hk t ht => hstar d' (List.mem_cons_of_mem d hd') hk t ht)
          hinv1
      rw [hstep]
      refine ⟨hinv2, by rw [htemp2, out1.temp_eq], ?_, ?_, ?_, ?_⟩
      · obtain ⟨s1, h1⟩ := out1.res_ext
        obtain ⟨s2, h2⟩ := hres2
        exact ⟨s1 ++ s2, by rw [h2, h1, List.append_assoc]⟩
      · exact fun y hy => hmono2 y (out1.vis_mono y hy)
      · intro y hy
        rcases hnew2 y hy with h | h
        · exact out1.vis_new y h
        · rw [out1.temp_eq] at h
          exact Or.inr h
      · intro d' hd' hk
        rcases List.mem_cons.mp hd' with rfl | hd'
        · rcases out1.covered with h | h
          · exact Or.inl (hmono2 d' h)
          · exact Or.inr h
        · rcases hcov2 d' hd' hk with h | h
          · exact Or.inl h
          · rw [out1.temp_eq] at h
            exact Or.inr h
    · have hstep : visitFold cfg fuel (d :: ds) s = visitFold cfg fuel ds s := by
        simp only [visitFold, List.foldl_cons, if_neg hd]
      obtain ⟨hinv2, htemp2, hres2, hmono2, hnew2, hcov2⟩ := ih s hsub hnd hfuel
        (fun d' hd' hk t ht => hstar d' (List.mem_cons_of_mem d hd') hk t ht) hinv
      rw [hstep]
      refine ⟨hinv2, htemp2, hres2, hmono2, hnew2, ?_⟩
      intro d' hd' hk
      rcases List.mem_cons.mp hd' with rfl | hd'
      · exact absurd ((cfgGet_isSome_iff_mem_keys cfg d').mpr hk) hd
      · exact hcov2 d' hd' hk

/-- Soundness of `visit` on acyclic collections: with sufficient fuel it
preserves the invariant, restores `temp_mark`, only appends to the result,
grows `visited` monotonically, never visits anything currently marked, and
covers its argument. -/
theorem visit_sound (cfg : Configs) (hacy : AcyclicCfg cfg) :
    ∀ (fuel : Nat) (x : String) (st : TopoState),
      x ∈ keysOf cfg →
      (∀ t ∈ st.temp_mark, t ∈ keysOf cfg) →
      st.temp_mark.Nodup →
      (keysOf cfg).length - st.temp_mark.length < fuel →
      (∀ t ∈ st.temp_mark, Relation.ReflTransGen (depEdge cfg) t x) →
      TopoInv cfg st →
      TopoInv cfg (visit cfg fuel x st) ∧ VisitOut st (visit cfg fuel x st) x := by
  intro fuel
  induction fuel with
  | zero =>
    intro x st _ _ _ hfuel _ _
    exact absurd hfuel (Nat.not_lt_zero _)
  | succ fuel ih =>
    intro x st hx hsub hnd hfuel hpre hinv
    by_cases h1 : x ∈ st.temp_mark
    · have hv : visit cfg (fuel + 1) x st = st := by
        simp only [visit, if_pos h1]
      rw [hv]
      exact ⟨hinv, rfl, ⟨[], by simp⟩, fun y hy => hy, fun y hy => Or.inl hy, Or.inr h1⟩
    · by_cases h2 : x ∈ st.visited
      · have hv : visit cfg (fuel + 1) x st = st := by
          simp only [visit, if_neg h1, if_pos h2]
        rw [hv]
        exact ⟨hinv, rfl, ⟨[], by simp⟩, fun y hy => hy, fun y hy => Or.inl hy, Or.inl h2⟩
      · -- working case
        have hTeq : addToSet st.temp_mark x = st.temp_mark ++ [x] := addToSet_of_not_mem h1
        have hsub1 : ∀ t ∈ addToSet st.temp_mark x, t ∈ keysOf cfg := by
          rw [hTeq]
          intro t ht
          rcases List.mem_append.mp ht with h | h
          · exact hsub t h
          · rw [List.mem_singleton.mp h]; exact hx
        have hnd1 : (addToSet st.temp_mark x).Nodup := by
          rw [hTeq, List.nodup_append]
          refine ⟨hnd, List.nodup_cons.mpr ⟨by simp, List.nodup_nil⟩, ?_⟩
          intro a ha hax
          rw [List.mem_singleton.mp hax] at ha
          exact h1 ha
        have hlen1 : (addToSet st.temp_mark x).length = st.temp_mark.length + 1 := by
          rw [hTeq, List.length_append, List.length_singleton]
        have hle1 : (addToSet st.temp_mark x).length ≤ (keysOf cfg).length :=
          nodup_length_le hnd1 hsub1
        have hfuel1 : (keysOf cfg).length - (addToSet st.temp_mark x).length < fuel := by
          omega
        have hedge_of : ∀ d ∈ depsOf cfg x, d ∈ keysOf cfg → depEdge cfg x d := by
          intro d hd hdk
          refine ⟨hdk, ?_⟩
          unfold depsOf at hd
          rcases hg : cfgGet cfg x with _ | it
          · rw [hg] at hd
            simp at hd
          · rw [hg] at hd
            exact ⟨it, rfl, hd⟩
        have hstar1 : ∀ d ∈ depsOf cfg x, d ∈ keysOf cfg →
            ∀ t ∈ addToSet st.temp_mark x, Relation.ReflTransGen (depEdge cfg) t d := by
          intro d hd hdk t ht
          rw [hTeq] at ht
          rcases List.mem_append.mp ht with h | h
          · exact (hpre t h).tail (hedge_of d hd hdk)
          · rw [List.mem_singleton.mp h]
            exact Relation.ReflTransGen.single (hedge_of d hd hdk)
        obtain ⟨hinv2, htemp2, hres2, hmono2, hnew2, hcov2⟩ :=
          visit_fold_sound cfg fuel ih (depsOf cfg x)
            { st with temp_mark := addToSet st.temp_mark x }
            hsub1 hnd1 hfuel1 hstar1 ⟨hinv.nodup, hinv.vis_res, hinv.sorted⟩
        have hv : visit cfg (fuel + 1) x st =
            { visitFold cfg fuel (depsOf cfg x) { st with temp_mark := addToSet st.temp_mark x } with
              temp_mark := (visitFold cfg fuel (depsOf cfg x)
                { st with temp_mark := addToSet st.temp_mark x }).temp_mark.erase x,
              visited := addToSet (visitFold cfg fuel (depsOf cfg x)
                { st with temp_mark := addToSet st.temp_mark x }).visited x,
              result := (visitFold cfg fuel (depsOf cfg x)
                { st with temp_mark := addToSet st.temp_mark x }).result ++ [x] } := by
          simp only [visit, if_neg h1, if_neg h2]
          rfl
        rw [hv]
        have hxvis2 : x ∉ (visitFold cfg fuel (depsOf cfg x)
            { st with temp_mark := addToSet st.temp_mark x }).visited := by
          intro hx2
          rcases hnew2 x hx2 with h | h
          · exact h2 h
          · exact h (by rw [show ({ st with temp_mark := addToSet st.temp_mark x } :
              TopoState).temp_mark = st.temp_mark ++ [x] from hTeq]; simp)
        have hxres2 : x ∉ (visitFold cfg fuel (depsOf cfg x)
            { st with temp_mark := addToSet st.temp_mark x }).result :=
          fun hr => hxvis2 ((hinv2.vis_res x).mpr hr)
        constructor
        · refine ⟨?_, ?_, ?_⟩
          · rw [List.nodup_append]
            refine ⟨hinv2.nodup, List.nodup_cons.mpr ⟨by simp, List.nodup_nil⟩, ?_⟩
            intro a ha hax
            rw [List.mem_singleton.mp hax] at ha
            exact hxres2 ha
          · intro y
            rw [mem_addToSet]
            constructor
            · rintro (h | rfl)
              · exact List.mem_append.mpr (Or.inl ((hinv2.vis_res y).mp h))
              · exact List.mem_append.mpr (Or.inr (by simp))
            · intro h
              rcases List.mem_append.mp h with h | h
              · exact Or.inl ((hinv2.vis_res y).mpr h)
              · exact Or.inr (List.mem_singleton.mp h)
          · intro v hv' d hd hdk
            rcases List.mem_append.mp hv' with hv' | hv'
            · exact (hinv2.sorted v hv' d hd hdk).append [x]
            · rw [List.mem_singleton.mp hv'] at hd ⊢
              rcases hcov2 d hd hdk with h | h
              · exact before_snoc ((hinv2.vis_res d).mp h)
              · exfalso
                rw [show ({ st with temp_mark := addToSet st.temp_mark x } :
                    TopoState).temp_mark = st.temp_mark ++ [x] from hTeq] at h
                rcases List.mem_append.mp h with h | h
                · exact hacy d (Relation.TransGen.tail' (hpre d h) (hedge_of d hd hdk))
                · rw [List.mem_singleton.mp h] at hd hdk
                  exact hacy x (Relation.TransGen.single (hedge_of x hd hdk))
        · refine ⟨?_, ?_, ?_, ?_, ?_⟩
          · rw [htemp2]
            rw [show ({ st with temp_mark := addToSet st.temp_mark x } :
                TopoState).temp_mark = st.temp_mark ++ [x] from hTeq]
            exact erase_snoc_self h1
          · obtain ⟨suf, hsuf⟩ := hres2
            exact ⟨suf ++ [x], by rw [hsuf, List.append_assoc]⟩
          · intro y hy
            exact mem_addToSet_of_mem (hmono2 y hy)
          · intro y hy
            rcases mem_addToSet.mp hy with h | rfl
            · rcases hnew2 y h with h' | h'
              · exact Or.inl h'
              · refine Or.inr (fun hyt => h' ?_)
                rw [show ({ st with temp_mark := addToSet st.temp_mark x} :
                    TopoState).temp_mark = st.temp_mark ++ [x] from hTeq]
                exact List.mem_append.mpr (Or.inl hyt)
            · exact Or.inr h1
          · exact Or.inl (mem_addToSet_self _ x)

/-- Soundness of the outer loop of the topological sort. -/
theorem topo_go_sound (cfg : Configs) (hacy : AcyclicCfg cfg) :
    ∀ (ks : List String) (st : TopoState),
      (∀ k ∈ ks, k ∈ keysOf cfg) →
      st.temp_mark = [] →
      TopoInv cfg st →
      TopoInv cfg (topo_go cfg (cfg.length + 1) ks st) ∧
      (∀ y ∈ st.visited, y ∈ (topo_go cfg (cfg.length + 1) ks st).visited) ∧
      (∀ k ∈ ks, k ∈ (topo_go cfg (cfg.length + 1) ks st).visited) := by
  intro ks
  induction ks with
  | nil =>
    intro st _ _ hinv
    exact ⟨hinv, fun y hy => hy, by simp⟩
  | cons k ks ih =>
    intro st hks htemp hinv
    have hk : k ∈ keysOf cfg := hks k (List.mem_cons_self k ks)
    by_cases hv : k ∈ st.visited
    · have hstep : topo_go cfg (cfg.length + 1) (k :: ks) st =
          topo_go cfg (cfg.length + 1) ks st := by
        simp only [topo_go, if_pos hv]
      rw [hstep]
      obtain ⟨hinv', hmono', hcov'⟩ :=
        ih st (fun k' h => hks k' (List.mem_cons_of_mem _ h)) htemp hinv
      refine ⟨hinv', hmono', ?_⟩
      intro k' hk'
      rcases List.mem_cons.mp hk' with rfl | h
      · exact hmono' k' hv
      · exact hcov' k' h
    · have hfuel : (keysOf cfg).length - st.temp_mark.length < cfg.length + 1 := by
        rw [htemp]
        simp [keysOf]
      obtain ⟨hinv1, out1⟩ := visit_sound cfg hacy (cfg.length + 1) k st hk
        (by rw [htemp]; simp) (by rw [htemp]; exact List.nodup_nil) hfuel
        (by rw [htemp]; simp) hinv
      have hstep : topo_go cfg (cfg.length + 1) (k :: ks) st =
          topo_go cfg (cfg.length + 1) ks (visit cfg (cfg.length + 1) k st) := by
        simp only [topo_go, if_neg hv]
      rw [hstep]
      have htemp1 : (visit cfg (cfg.length + 1) k st).temp_mark = [] := by
        rw [out1.temp_eq, htemp]
      obtain ⟨hinv', hmono', hcov'⟩ := ih (visit cfg (cfg.length + 1) k st)
        (fun k' h => hks k' (List.mem_cons_of_mem _ h)) htemp1 hinv1
      refine ⟨hinv', fun y hy => hmono' y (out1.vis_mono y hy), ?_⟩
      intro k' hk'
      rcases List.mem_cons.mp hk' with rfl | h
      · rcases out1.covered with h | h
        · exact hmono' k' h
        · rw [htemp] at h
          simp at h
      · exact hcov' k' h

theorem indexOf_eq_of_get? {l : List String} (hnd : l.Nodup) :
    ∀ (i : Nat) (a : String), l.get? i = some a → l.indexOf a = i := by
  induction l with
  | nil =>
    intro i a h
    simp at h
  | cons x xs ih =>
    intro i a h
    cases i with
    | zero =>
      simp only [List.get?] at h
      injection h with h
      rw [h]
      exact List.indexOf_cons_self a xs
    | succ n =>
      rw [List.get?_cons_succ] at h
      have hmem : a ∈ xs := List.get?_mem h
      have hx : x ≠ a := by
        rintro rfl
        exact (List.nodup_cons.mp hnd).1 hmem
      rw [List.indexOf_cons_ne _ hx, ih (List.nodup_cons.mp hnd).2 n a h]

theorem before_indexOf {l : List String} (hnd : l.Nodup) {a b : String}
    (h : Before l a b) : l.indexOf a < l.indexOf b := by
  obtain ⟨i, j, hij, ha, hb⟩ := h
  rw [indexOf_eq_of_get? hnd i a ha, indexOf_eq_of_get? hnd j b hb]
  exact hij

theorem cfgGet_of_mem_nodup {cfg : Configs} (hnd : (keysOf cfg).Nodup)
    {k : String} {it : ConfigItem} (h : (k, it) ∈ cfg) : cfgGet cfg k = some it := by
  induction cfg with
  | nil => simp at h
  | cons p rest ih =>
    obtain ⟨k', v⟩ := p
    have hnd' : k' ∉ keysOf rest ∧ (keysOf rest).Nodup := by
      have := hnd
      rw [keysOf, List.map_cons] at this
      exact List.nodup_cons.mp this
    rcases List.mem_cons.mp h with heq | hmem
    · injection heq with h1 h2
      subst h1
      subst h2
      rw [cfgGet, if_pos rfl]
    · have hk' : k' ≠ k := by
        rintro rfl
        exact hnd'.1 (List.mem_map.mpr ⟨(k', it), hmem, rfl⟩)
      rw [cfgGet, if_neg hk']
      exact ih hnd'.2 hmem

/-- C1: for every acyclic collection (with the dictionary's keys pairwise
distinct, as Python dict keys are), `get_dependency_order` returns a list in
which every entity appears and each of its dependencies that is present in
the collection appears at a strictly smaller index. -/
theorem dependency_order_topological (cfg : Configs)
    (hnd : (keysOf cfg).Nodup) (hacy : AcyclicCfg cfg) :
    ∃ l, get_dependency_order cfg = .ok l ∧
      ∀ (k : String) (it : ConfigItem), (k, it) ∈ cfg →
        k ∈ l ∧ ∀ d ∈ it.dependencies, d ∈ keysOf cfg →
          l.indexOf d < l.indexOf k := by
  obtain ⟨hinvF, hmonoF, hcovF⟩ := topo_go_sound cfg hacy (keysOf cfg)
    ({} : TopoState) (fun _ h => h) rfl ⟨List.nodup_nil, by simp, by simp⟩
  refine ⟨(topo_go cfg (cfg.length + 1) (keysOf cfg) {}).result,
    get_dependency_order_acyclic cfg hacy, ?_⟩
  intro k it hkit
  have hk : k ∈ keysOf cfg := List.mem_map.mpr ⟨(k, it), hkit, rfl⟩
  have hkres : k ∈ (topo_go cfg (cfg.length + 1) (keysOf cfg) {}).result :=
    (hinvF.vis_res k).mp (hcovF k hk)
  refine ⟨hkres, ?_⟩
  intro d hd hdk
  have hget : cfgGet cfg k = some it := cfgGet_of_mem_nodup hnd hkit
  have hdeps : d ∈ depsOf cfg k := by
    unfold depsOf
    rw [hget]
    exact hd
  exact before_indexOf hinvF.nodup (hinvF.sorted k hkres d hdeps hdk)

/-- The acyclic two-unit collection used by the C1 witness. -/
def cfgC1 : Configs := [("A", mkItem "A" []), ("B", mkItem "B" ["A"])]

/-- C1 witness: the hypotheses hold for `cfgC1` and the theorem instantiates. -/
theorem dependency_order_topological_witness :
    (keysOf cfgC1).Nodup ∧ AcyclicCfg cfgC1 ∧
    (∃ l, get_dependency_order cfgC1 = .ok l ∧
      ∀ (k : String) (it : ConfigItem), (k, it) ∈ cfgC1 →
        k ∈ l ∧ ∀ d ∈ it.dependencies, d ∈ keysOf cfgC1 →
          l.indexOf d < l.indexOf k) := by
  have hedge : ∀ x y, depEdge cfgC1 x y → x = "B" ∧ y = "A" := by
    rintro x y ⟨hk, it, hget, hd⟩
    by_cases h1 : "A" = x
    · simp only [cfgC1, cfgGet, if_pos h1] at hget
      injection hget with hit
      rw [← hit] at hd
      simp [mkItem] at hd
    · by_cases h2 : "B" = x
      · simp only [cfgC1, cfgGet, if_neg h1, if_pos h2] at hget
        injection hget with hit
        rw [← hit] at hd
        simp only [mkItem, List.mem_singleton] at hd
        exact ⟨h2.symm, hd⟩
      · simp only [cfgC1, cfgGet, if_neg h1, if_neg h2] at hget
        exact absurd hget (by simp)
  have hacy : AcyclicCfg cfgC1 := by
    intro a h
    rcases Relation.TransGen.head'_iff.mp h with ⟨b, hab, hba⟩
    obtain ⟨ha, hb⟩ := hedge a b hab
    rw [hb] at hba
    rw [ha] at hba
    rcases Relation.ReflTransGen.cases_head hba with heq | ⟨c, hc, _⟩
    · exact absurd heq (by decide)
    · exact absurd (hedge _ _ hc).1 (by decide)
  exact ⟨by decide, hacy, dependency_order_topological cfgC1 (by decide) hacy⟩
